import Mathlib

/-!
Verification development for the CasesStatusAPI repository: a shallow
embedding in Lean 4 of the deterministic core of the four source variants
(`src/server.js`, `src/server1.js`, `src/unnamed/part_000`,
`src/unnamed/part_001`), together with theorems settling the frozen claims
about retry orchestration, backoff delays, caching, request composition,
input validation, CAPTCHA answer post-processing, token extraction and
results-table parsing.

Modelling conventions:
  - JavaScript strings are Lean `String`s; character-level algorithms work
    on `List Char` (the `.data` of a string).
  - Fallible JS code (`throw`) is `Except String`.
  - Network and oracle interactions are inputs to the model (environment
    records / outcome functions); everything the repository computes
    itself is embedded as executable Lean definitions.
  - DOM queries (cheerio) are modelled on structured representations of
    the selected elements: lists of input tags, lists of table rows/cells.
-/

namespace CasesStatus

/-! ## JavaScript string primitives used by the source -/

/-- The whitespace class used by JS `trim` / regex `\s` (ASCII part; the
source only ever meets ASCII whitespace in the fields it handles). -/
def isJsSpace (c : Char) : Bool :=
  c = ' ' || c = '\t' || c = '\n' || c = '\r' || c = '\x0b' || c = '\x0c'

/-- JS `String.prototype.trim` on a character list. -/
def jsTrim (cs : List Char) : List Char :=
  ((cs.dropWhile isJsSpace).reverse.dropWhile isJsSpace).reverse

/-- JS `String.prototype.trim` on a `String`. -/
def jsTrimS (s : String) : String :=
  ⟨jsTrim s.data⟩

/-- `dropWhile` does not lengthen a list (termination helper). -/
theorem length_dropWhile_le (p : Char → Bool) (cs : List Char) :
    (cs.dropWhile p).length ≤ cs.length :=
  (List.dropWhile_sublist p (l := cs)).length_le

/-- Single-pass scanner for `replace` with pattern `\s+`: `inRun` records
whether the scanner is inside a whitespace run whose replacement space was
already emitted. -/
def collapseWsAux (inRun : Bool) : List Char → List Char
  | [] => []
  | c :: rest =>
    if isJsSpace c then
      if inRun then collapseWsAux true rest
      else ' ' :: collapseWsAux true rest
    else
      c :: collapseWsAux false rest

/-- JS `str.replace` with pattern `\s+` (global) and replacement `' '`:
every maximal run of whitespace becomes one space (used by `part_001`'s
parser). -/
def collapseWs (cs : List Char) : List Char :=
  collapseWsAux false cs

/-- Single-pass scanner for `replace` with pattern `\s\s+`: a whitespace
character followed by another starts a run replaced by one space; a lone
whitespace character is kept. -/
def collapse2WsAux (inRun : Bool) : List Char → List Char
  | [] => []
  | c :: rest =>
    if isJsSpace c then
      if inRun then collapse2WsAux true rest
      else
        match rest with
        | [] => [c]
        | d :: _ =>
          if isJsSpace d then ' ' :: collapse2WsAux true rest
          else c :: collapse2WsAux false rest
    else
      c :: collapse2WsAux false rest

/-- JS `str.replace` with pattern `\s\s+` (global) and replacement `' '`:
every run of two or more whitespace characters becomes one space, single
whitespace kept (used by `server.js`'s parser). -/
def collapse2Ws (cs : List Char) : List Char :=
  collapse2WsAux false cs

/-- JS `str.split('/')`: split at every `'/'`, keeping empty segments
(so `"".split('/') = [""]` and `"a//b".split('/') = ["a","","b"]`). -/
def splitOnSlash : List Char → List (List Char)
  | [] => [[]]
  | c :: rest =>
    if c = '/' then
      [] :: splitOnSlash rest
    else
      match splitOnSlash rest with
      | [] => [[c]]
      | p :: ps => (c :: p) :: ps

/-- JS `str.replace(sub, '')` with a plain-string pattern: remove the first
occurrence of `sub` (identity when `sub` does not occur). -/
def removeFirstSub (sub : List Char) : List Char → List Char
  | [] => []
  | c :: rest =>
    if sub.isPrefixOf (c :: rest) then
      (c :: rest).drop sub.length
    else
      c :: removeFirstSub sub rest

/-- First match of the JS regex `-?\d+` in a character list: at the
leftmost position where either a digit, or a minus sign directly followed
by a digit, occurs, take the optional sign and the maximal digit run. -/
def firstSignedInt : List Char → Option (List Char)
  | [] => none
  | c :: rest =>
    if c.isDigit then
      some (c :: rest.takeWhile Char.isDigit)
    else if c = '-' && (rest.head?.map Char.isDigit).getD false then
      some ('-' :: rest.takeWhile Char.isDigit)
    else
      firstSignedInt rest

/-! ## Markup Extractor: CSRF token (`extractToken`, identical in all
four variants) -/

/-- An `<input>` element as seen by the cheerio selector: its `type`,
`name` and `value` attributes (absent attributes are `none`). -/
structure InputTag where
  typeAttr : Option String
  nameAttr : Option String
  valueAttr : Option String
deriving DecidableEq

/-- A (name, value) session-token pair. -/
structure SessionToken where
  name : String
  value : String
deriving DecidableEq

/-- JS `String.prototype.startsWith` / the CSS `^=` attribute test,
implemented on the character lists so it evaluates by kernel reduction. -/
def strStartsWith (s pre : String) : Bool :=
  pre.data.isPrefixOf s.data

/-- The cheerio selector `input[type="hidden"][name^="tok_"]`. -/
def isHiddenTok (i : InputTag) : Bool :=
  i.typeAttr == some "hidden" &&
    (match i.nameAttr with
     | some n => strStartsWith n "tok_"
     | none => false)

/-- `extractToken(html)`: take the FIRST hidden input whose name starts
with `tok_`; return its (name, value) if both are present and non-empty
(JS truthiness), otherwise throw `CSRF token not found.`. -/
def extractToken (inputs : List InputTag) : Except String SessionToken :=
  match (inputs.filter isHiddenTok).head? with
  | some tokenInput =>
    match tokenInput.nameAttr, tokenInput.valueAttr with
    | some tokenName, some tokenValue =>
      if tokenName ≠ "" && tokenValue ≠ "" then
        .ok ⟨tokenName, tokenValue⟩
      else
        .error "CSRF token not found."
    | _, _ => .error "CSRF token not found."
  | none => .error "CSRF token not found."

/-! ## CAPTCHA Solver Adapter post-processing (`solveCaptchaWithGemini`,
identical post-processing in all variants) -/

/-- The post-processing step of `solveCaptchaWithGemini` applied to the
oracle's free-text reply: `text.trim().match` with pattern `-?\d+`;
return the first signed-integer substring, or throw when none exists. -/
def solveCaptchaPost (text : String) : Except String String :=
  match firstSignedInt (jsTrim text.data) with
  | some cleanedAnswer =>
    if cleanedAnswer.isEmpty then
      .error "Gemini Error: Failed to get clear numerical answer for CAPTCHA."
    else
      .ok ⟨cleanedAnswer⟩
  | none => .error "Gemini Error: Failed to get clear numerical answer for CAPTCHA."

/-- Whole-adapter model: the oracle call either fails (API error) or
yields free text which is post-processed; every error is re-wrapped by the
catch block (`CAPTCHA solving failed: ...`). -/
def solveCaptchaWithGemini (oracleReply : Except String String) : Except String String :=
  match oracleReply with
  | .error e => .error ("Gemini CAPTCHA solving failed: " ++ e)
  | .ok text =>
    match solveCaptchaPost text with
    | .ok answer => .ok answer
    | .error e => .error ("Gemini CAPTCHA solving failed: " ++ e)

/-! ## Request Composer (`buildFinalUrl`, identical in all variants) -/

def AJAX_URL_BASE : String := "https://www.sci.gov.in/wp-admin/admin-ajax.php"

def INITIAL_PAGE_URL : String := "https://www.sci.gov.in/case-status-diary-no/"

/-- The ordered (name, value) pairs appended to the `URLSearchParams` by
`buildFinalUrl`. -/
def buildFinalUrlParams (diaryNo year scid : String) (token : SessionToken)
    (captchaAnswer : String) : List (String × String) :=
  [("diary_no", diaryNo),
   ("year", year),
   ("scid", scid),
   (token.name, token.value),
   ("siwp_captcha_value", captchaAnswer),
   ("es_ajax_request", "1"),
   ("submit", "Search"),
   ("action", "get_case_status_diary_no"),
   ("language", "en")]

/-- Characters the `application/x-www-form-urlencoded` serializer of
`URLSearchParams` leaves unescaped. -/
def isUrlUnreserved (c : Char) : Bool :=
  c.isAlphanum || c = '*' || c = '-' || c = '.' || c = '_'

/-- Upper-case hexadecimal digit for `n < 16`. -/
def hexDigit (n : Nat) : Char :=
  if n < 10 then Char.ofNat (48 + n) else Char.ofNat (55 + n)

/-- Percent-encoding of one character in the form-urlencoded serializer:
space becomes `+`, unreserved characters pass through, everything else is
percent-escaped byte by byte (UTF-8). -/
def percentEncodeChar (c : Char) : List Char :=
  if c = ' ' then ['+']
  else if isUrlUnreserved c then [c]
  else (String.utf8EncodeChar c).foldr
    (fun b acc => '%' :: hexDigit (b.toNat / 16) :: hexDigit (b.toNat % 16) :: acc) []

/-- Form-urlencode a string. -/
def urlencode (s : String) : String :=
  ⟨s.data.foldr (fun c acc => percentEncodeChar c ++ acc) []⟩

/-- `URLSearchParams.prototype.toString`. -/
def encodeParams (ps : List (String × String)) : String :=
  String.intercalate "&" (ps.map (fun p => urlencode p.1 ++ "=" ++ urlencode p.2))

/-- `buildFinalUrl(diaryNo, year, scid, token, captchaAnswer)`. -/
def buildFinalUrl (diaryNo year scid : String) (token : SessionToken)
    (captchaAnswer : String) : String :=
  AJAX_URL_BASE ++ "?" ++ encodeParams (buildFinalUrlParams diaryNo year scid token captchaAnswer)

/-! ## Retry Orchestrator

All four variants run the same `while (attempts < MAX_ATTEMPTS)` loop:
increment `attempts`, run one full attempt cycle; on success return its
payload at once; on failure record the error as `lastError` and, if
attempts remain, sleep `delay(attempts)` seconds; after the loop throw
`lastError`.  The loop is embedded structurally on the number of
remaining iterations (`fuel = MAX_ATTEMPTS - attempts`), so the model
evaluates by kernel reduction. -/

deriving instance DecidableEq for Except

/-- Observable result of one `getCaseDetailsProcess` run: how many attempt
cycles ran, which delays were slept (in order), and the returned payload
or thrown error. -/
structure ProcessTrace (α : Type) where
  attemptsRun : Nat
  sleeps : List ℚ
  result : Except String α
deriving DecidableEq

/-- The retry loop.  `outcomes n` is the result of the n-th attempt cycle
(1-based), `delay n` the backoff slept after a failed n-th attempt,
`fuel` the number of loop iterations left, `attempts` / `lastError` /
`sleeps` the loop state so far. -/
def retryLoop (outcomes : Nat → Except String α) (delay : Nat → ℚ) :
    Nat → Nat → String → List ℚ → ProcessTrace α
  | 0, attempts, lastError, sleeps => ⟨attempts, sleeps, .error lastError⟩
  | fuel + 1, attempts, _, sleeps =>
    match outcomes (attempts + 1) with
    | .ok v => ⟨attempts + 1, sleeps, .ok v⟩
    | .error e =>
      match fuel with
      | 0 => ⟨attempts + 1, sleeps, .error e⟩
      | f + 1 =>
        retryLoop outcomes delay (f + 1) (attempts + 1) e
          (sleeps ++ [delay (attempts + 1)])

/-- The backoff used by `server1.js`, `part_000` and `part_001`:
`Math.pow(2, attempts) + Math.random()`, with the random draw for the
sleep after attempt `n` supplied as `jitter n`. -/
def backoffDelay (jitter : Nat → ℚ) (attempts : Nat) : ℚ :=
  2 ^ attempts + jitter attempts

/-- The delay used by `server.js`: `2 + attempts` (linear, no jitter). -/
def serverDelay (attempts : Nat) : ℚ :=
  2 + attempts

/-! ## Response cache (`server1.js` only): `node-cache` with a TTL -/

/-- One cache slot: stored payload and its absolute expiry instant. -/
structure CacheEntry (α : Type) where
  value : α
  expiresAt : ℚ

/-- The process-wide `responseCache`, keyed by `"diaryNo/year"`. -/
def Cache (α : Type) := List (String × CacheEntry α)

/-- `responseCache.get(key)` at instant `now`: the stored value when the
entry exists and has not expired, otherwise absent. -/
def cacheGet (c : Cache α) (key : String) (now : ℚ) : Option α :=
  match c.find? (fun p => p.1 == key) with
  | some p => if now < p.2.expiresAt then some p.2.value else none
  | none => none

/-- `responseCache.set(key, v)` at instant `now` with time-to-live `ttl`
seconds: replace any previous entry for the key. -/
def cacheSet (c : Cache α) (key : String) (v : α) (now ttl : ℚ) : Cache α :=
  (key, ⟨v, now + ttl⟩) :: c.filter (fun p => p.1 != key)

/-! ## URL resolution

`new URL(rel, base).href` from the WHATWG URL library (an external
collaborator of the repository).  Simplified model covering the shapes the
source feeds it: absolute URLs pass through, root-relative paths are
joined to the site origin, other relative paths are appended to the
base. -/
def resolveUrl (base rel : String) : String :=
  if strStartsWith rel "http://" || strStartsWith rel "https://" then rel
  else if strStartsWith rel "/" then "https://www.sci.gov.in" ++ rel
  else base ++ rel

/-! ## Request validation (`POST /api/case-details`, identical in all
four variants) -/

/-- The `diaryData` field of the request body as the handler sees it:
absent, present but not a string, or a string. -/
inductive ReqBody where
  | missing : ReqBody
  | notString : ReqBody
  | str : String → ReqBody
deriving DecidableEq

/-- The validation prologue of the endpoint handler: `!diaryData ||
typeof diaryData !== 'string'` rejects with the payload message (note an
empty string is falsy); then `diaryData.split('/')` must give exactly two
parts, the first matching `^\d+$` and the second `^\d{4}$`. -/
def validateDiaryData (body : ReqBody) : Except String (String × String) :=
  match body with
  | .str s =>
    if s = "" then
      .error "Invalid payload: 'diaryData' (string 'number/year') is required."
    else
      match splitOnSlash s.data with
      | [a, b] =>
        if !a.isEmpty && a.all Char.isDigit && b.length == 4 && b.all Char.isDigit then
          .ok (⟨a⟩, ⟨b⟩)
        else
          .error "Invalid 'diaryData' format: Expected 'number/year' (e.g., '2444/2023')."
      | _ =>
        .error "Invalid 'diaryData' format: Expected 'number/year' (e.g., '2444/2023')."
  | _ => .error "Invalid payload: 'diaryData' (string 'number/year') is required."

/-- The spec's validation pattern, written from its words: the whole
string matches `^\d+/\d{4}$`, i.e. it decomposes as one or more digits, a
slash, and exactly four digits.  Used only to compare the source-derived
`validateDiaryData` against the spec. -/
def specDiaryPattern (cs : List Char) : Prop :=
  ∃ a b, cs = a ++ '/' :: b ∧ a ≠ [] ∧ (∀ c ∈ a, c.isDigit) ∧
    b.length = 4 ∧ (∀ c ∈ b, c.isDigit)

/-! ## `src/server.js`: single-record variant -/

namespace Server

/-- One `tr` of `div.distTableContent table tbody` as server.js reads it:
the raw text of its `td` children in order, the texts selected by
`td.petitioners` and `td.respondents` (empty when the class is absent —
cheerio `.text()` of an empty selection is `""`), and the `href` of
`td:nth-child(7) a.viewCnrDetails` when present. -/
structure ServerRow where
  cells : List String
  petitionersText : String
  respondentsText : String
  viewCnrHref : Option String
deriving DecidableEq

/-- The record built by `parseCaseDetailsFromHtml`. -/
structure CaseData where
  serialNumber : String
  diaryNumber : String
  caseNumber : String
  petitionerName : String
  respondentName : String
  status : String
  actionViewLink : Option String
deriving DecidableEq

/-- `parseCaseDetailsFromHtml(htmlString)`: look only at the FIRST row of
the results table; throw when there is no row; read the first six cells
positionally (petitioner and respondent prefer the class-selected cells,
falling back to positions 4 and 5, with runs of two or more whitespace
collapsed); accept only when the diary-number cell is non-empty after
trimming. -/
def parseCaseDetailsFromHtml (rows : List ServerRow) : Except String CaseData :=
  match rows.head? with
  | none => .error "CaseDetailsParse Error: Could not parse details from resultsHTML."
  | some caseRow =>
    let td := fun (k : Nat) => jsTrimS ((caseRow.cells.get? (k - 1)).getD "")
    let petitBase := let p := jsTrimS caseRow.petitionersText; if p ≠ "" then p else td 4
    let respBase := let r := jsTrimS caseRow.respondentsText; if r ≠ "" then r else td 5
    let caseData : CaseData := {
      serialNumber := td 1
      diaryNumber := td 2
      caseNumber := td 3
      petitionerName := ⟨collapse2Ws petitBase.data⟩
      respondentName := ⟨collapse2Ws respBase.data⟩
      status := td 6
      actionViewLink :=
        match caseRow.viewCnrHref with
        | some viewLink =>
          if viewLink ≠ "" then some (resolveUrl INITIAL_PAGE_URL viewLink) else none
        | none => none }
    if caseData.diaryNumber ≠ "" then .ok caseData
    else .error "CaseDetailsParse Error: Could not parse details from resultsHTML."

/-- The JSON envelope of the final AJAX reply as server.js checks it:
`jsonData.success` truthiness, and `jsonData.data && jsonData.data.resultsHtml`
modelled as the parsed rows of the results fragment when present and
non-empty. -/
structure AjaxEnvelope where
  success : Bool
  resultsHtml : Option (List ServerRow)

/-- The external interactions of one attempt cycle, in the order the
cycle performs them; each is an outcome the environment supplies. -/
structure AttemptEnv where
  initialPage : Except String (List InputTag)
  captchaInfo : Except String String
  imageBuffer : Except String Unit
  oracleReply : Except String String
  ajaxReply : String → Except String AjaxEnvelope

/-- One full attempt cycle of server.js `getCaseDetailsProcess`: fetch the
initial page, extract the token, extract the captcha info (scid), fetch
the image, solve the CAPTCHA, build the final URL, perform the AJAX call,
check the envelope, and parse the first result row.  The first failing
step aborts the cycle. -/
def attemptCycle (diaryNo year : String) (env : AttemptEnv) : Except String CaseData :=
  match env.initialPage with
  | .error e => .error e
  | .ok inputs =>
    match extractToken inputs with
    | .error e => .error e
    | .ok token =>
      match env.captchaInfo with
      | .error e => .error e
      | .ok scid =>
        match env.imageBuffer with
        | .error e => .error e
        | .ok _ =>
          match solveCaptchaWithGemini env.oracleReply with
          | .error e => .error e
          | .ok captchaAnswer =>
            match env.ajaxReply (buildFinalUrl diaryNo year scid token captchaAnswer) with
            | .error e => .error e
            | .ok jsonData =>
              match jsonData.success, jsonData.resultsHtml with
              | true, some rows => parseCaseDetailsFromHtml rows
              | _, _ => .error "AJAX Error: Response unsuccessful or malformed."

/-- server.js `getCaseDetailsProcess(diaryNo, year)`: `MAX_ATTEMPTS = 5`,
delay `2 + attempts` seconds between failed attempts. -/
def getCaseDetailsProcess (diaryNo year : String) (envs : Nat → AttemptEnv) :
    ProcessTrace CaseData :=
  retryLoop (fun n => attemptCycle diaryNo year (envs n)) serverDelay 5 0
    "Process not attempted." []

/-- A response of the server.js endpoint: HTTP status, the JSON `success`
flag, payload or error message, and `timeTakenMs`. -/
structure ApiResponse where
  status : Nat
  success : Bool
  payload : Option CaseData
  errorMsg : Option String
  timeTakenMs : ℚ
deriving DecidableEq

/-- The respond stage of the server.js handler: 200 with the parsed
record when the process returned one, 500 with the thrown message when it
threw. -/
def respondCaseDetails (result : Except String CaseData) (elapsed : ℚ) : ApiResponse :=
  match result with
  | .ok caseDetails => ⟨200, true, some caseDetails, none, elapsed⟩
  | .error e =>
    ⟨500, false, none, some ("Failed to retrieve case details: " ++ e), elapsed⟩

/-- The server.js `POST /api/case-details` handler: validate, then run
the process and respond.  The boolean reports whether
`getCaseDetailsProcess` was started at all. -/
def handleCaseDetails (body : ReqBody) (envs : Nat → AttemptEnv) (elapsed : ℚ) :
    ApiResponse × Bool :=
  match validateDiaryData body with
  | .error msg => (⟨400, false, none, some msg, elapsed⟩, false)
  | .ok (diaryNo, year) =>
    (respondCaseDetails (getCaseDetailsProcess diaryNo year envs).result elapsed, true)

end Server

/-! ## `src/server1.js`: cached pass-through variant -/

namespace Server1

/-- server1.js `getCaseDetailsProcess(diaryNo, year)`:
consult the cache under the key `diaryNo + "/" + year` first and return
a hit at once (no attempt cycle runs); otherwise run the retry loop with
configurable `MAX_ATTEMPTS` and exponential backoff `2^attempts +
Math.random()`.  In the source the successful cycle stores its payload in
the cache just before returning it; the payload returns unchanged, so the
write is applied to the loop's successful result here.  The payload type
`α` stands for the raw AJAX JSON envelope, which this variant passes
through untouched. -/
def getCaseDetailsProcess (maxAttempts : Nat) (cacheTTL now : ℚ) (cache : Cache α)
    (diaryNo year : String) (outcomes : Nat → Except String α) (jitter : Nat → ℚ) :
    ProcessTrace α × Cache α :=
  let cacheKey := diaryNo ++ "/" ++ year
  match cacheGet cache cacheKey now with
  | some cachedData => (⟨0, [], .ok cachedData⟩, cache)
  | none =>
    let t := retryLoop outcomes (backoffDelay jitter) maxAttempts 0
      "Process not attempted." []
    match t.result with
    | .ok responseData => (t, cacheSet cache cacheKey responseData now cacheTTL)
    | .error _ => (t, cache)

end Server1

/-! ## `src/unnamed/part_000`: uncached pass-through variant -/

namespace Part000

/-- part_000 `getCaseDetailsProcess(diaryNo, year)`: `MAX_ATTEMPTS = 3`,
exponential backoff `2^attempts + Math.random()`, no cache, payload
passed through. -/
def getCaseDetailsProcess (outcomes : Nat → Except String α) (jitter : Nat → ℚ) :
    ProcessTrace α :=
  retryLoop outcomes (backoffDelay jitter) 3 0 "Process not attempted." []

end Part000

/-! ## `src/unnamed/part_001`: normalizing variant -/

namespace Part001

/-- One `td` of a results-table row: its text content, and the `href` of
an `a.viewCnrDetails` child when one exists. -/
structure Cell where
  text : String
  viewCnrHref : Option String
deriving DecidableEq

/-- The record built by `parseCaseDetailsHtml` for each row. -/
structure CaseDetail where
  serialNumber : String
  diaryNumber : String
  caseNumber : String
  registeredOn : String
  petitionerName : String
  respondentName : String
  status : String
  viewDetailsLink : String
deriving DecidableEq

/-- Case-insensitive literal match of `pat` at the head of `cs`; returns
the consumed input characters and the rest. -/
def matchPrefixCI : List Char → List Char → Option (List Char × List Char)
  | [], cs => some ([], cs)
  | _ :: _, [] => none
  | p :: ps, c :: cs =>
    if c.toLower = p.toLower then
      (matchPrefixCI ps cs).map (fun r => (c :: r.1, r.2))
    else
      none

/-- Match `[\d]{2}-[\d]{2}-[\d]{4}` at the head of `cs`; returns the
captured date characters and the rest. -/
def matchDate : List Char → Option (List Char × List Char)
  | d1 :: d2 :: '-' :: d3 :: d4 :: '-' :: y1 :: y2 :: y3 :: y4 :: rest =>
    if d1.isDigit && d2.isDigit && d3.isDigit && d4.isDigit &&
        y1.isDigit && y2.isDigit && y3.isDigit && y4.isDigit then
      some ([d1, d2, '-', d3, d4, '-', y1, y2, y3, y4], rest)
    else
      none
  | _ => none

/-- Match the regex `Registered on\s*([\d]{2}-[\d]{2}-[\d]{4})` (flag `i`)
anchored at the head of `cs`: the literal case-insensitively, then greedy
whitespace, then the date.  No backtracking is needed because whitespace
and digits are disjoint.  Returns (whole match, capture group 1). -/
def matchRegisteredOnAt (cs : List Char) : Option (List Char × List Char) :=
  match matchPrefixCI "Registered on".data cs with
  | none => none
  | some (lit, rest1) =>
    let ws := rest1.takeWhile isJsSpace
    match matchDate (rest1.dropWhile isJsSpace) with
    | some (cap, _) => some (lit ++ ws ++ cap, cap)
    | none => none

/-- Leftmost match of the `Registered on` date regex in `cs` (what JS
`caseInfoFullText.match` finds): (whole match, capture group 1). -/
def findRegisteredOn : List Char → Option (List Char × List Char)
  | [] => none
  | c :: rest =>
    match matchRegisteredOnAt (c :: rest) with
    | some r => some r
    | none => findRegisteredOn rest

/-- The (caseNumber, registeredOn) pair computed from the trimmed text of
the third cell: when the `Registered on` pattern matches, the capture is
the registration date and the whole match is removed from the case-number
text; either way whitespace runs collapse to single spaces and the result
is trimmed. -/
def splitCaseInfo (caseInfoFullText : String) : String × String :=
  match findRegisteredOn caseInfoFullText.data with
  | some (m0, cap) =>
    (⟨jsTrim (collapseWs (removeFirstSub m0 caseInfoFullText.data))⟩, ⟨cap⟩)
  | none =>
    (⟨jsTrim (collapseWs caseInfoFullText.data)⟩, "")

/-- Parse one row: rows with fewer than 7 cells are skipped (`none`);
otherwise the cells map positionally into a `CaseDetail`, with the third
cell split into case number and registration date, and the seventh cell's
view link resolved against the site base. -/
def parseRow (cells : List Cell) : Option CaseDetail :=
  if cells.length ≥ 7 then
    let cellText := fun (i : Nat) => ((cells.get? i).map Cell.text).getD ""
    let info := splitCaseInfo (jsTrimS (cellText 2))
    some {
      serialNumber := jsTrimS (cellText 0)
      diaryNumber := jsTrimS (cellText 1)
      caseNumber := info.1
      registeredOn := info.2
      petitionerName := jsTrimS (cellText 3)
      respondentName := jsTrimS (cellText 4)
      status := jsTrimS (cellText 5)
      viewDetailsLink :=
        match (cells.get? 6).bind Cell.viewCnrHref with
        | some relativeLink =>
          if relativeLink ≠ "" then resolveUrl "https://www.sci.gov.in/" relativeLink
          else ""
        | none => "" }
  else
    none

/-- `parseCaseDetailsHtml(htmlString)` on the rows selected by
`div.distTableContent table tbody tr`: zero rows yield `[]` (both the
no-records-message branch and the plain empty branch return the empty
array); each remaining row is parsed independently, short rows skipped. -/
def parseCaseDetailsHtml (rows : List (List Cell)) : List CaseDetail :=
  rows.filterMap parseRow

/-- The `success` field of the upstream JSON envelope under the strict
comparisons the handler performs (`=== true`, `=== false`). -/
inductive JsSuccessFlag where
  | tru : JsSuccessFlag
  | fls : JsSuccessFlag
  | other : JsSuccessFlag
deriving DecidableEq

/-- The `data` member of the upstream envelope: optional `message` and
`html` strings (absent or empty modelled as `none`, other values as
`some`), the `resultsHtml` fragment (given as its parsed rows; `none`
when absent or empty), and the `pagination` payload. -/
structure SourceData where
  message : Option String
  htmlMsg : Option String
  resultsHtml : Option (List (List Cell))
  pagination : Option String

/-- The upstream JSON envelope returned by `getCaseDetailsProcess`. -/
structure Envelope where
  success : JsSuccessFlag
  data : Option SourceData

/-- What the part_001 endpoint sends back: status, `success` flag,
normalized records or error message, pagination when present, and
`timeTakenMs`. -/
structure ApiResponse where
  status : Nat
  success : Bool
  records : Option (List CaseDetail)
  errorMsg : Option String
  pagination : Option String
  timeTakenMs : ℚ

/-- The respond stage of the part_001 handler: on an envelope with
`success === true` and a results fragment, 200 with the parsed records
and pagination; on `success === false`, 422 with the upstream message; on
any other envelope shape, 500; on a thrown process error, 500. -/
def respondCaseDetails (processResult : Except String Envelope) (elapsed : ℚ) :
    ApiResponse :=
  match processResult with
  | .error e =>
    ⟨500, false, none, some ("Failed to retrieve case details: " ++ e), none, elapsed⟩
  | .ok sourceResponse =>
    match sourceResponse.success, sourceResponse.data with
    | .tru, some d =>
      match d.resultsHtml with
      | some rows =>
        ⟨200, true, some (parseCaseDetailsHtml rows), none, d.pagination, elapsed⟩
      | none =>
        ⟨500, false, none,
          some "Failed to process response from source: Unexpected data structure.",
          none, elapsed⟩
    | .fls, d =>
      let errorMessage :=
        ((d.bind fun dd => match dd.message with
          | some m => some m
          | none => dd.htmlMsg)).getD
          "Failed to retrieve details: Source reported an error."
      ⟨422, false, none, some errorMessage, none, elapsed⟩
    | _, _ =>
      ⟨500, false, none,
        some "Failed to process response from source: Unexpected data structure.",
        none, elapsed⟩

/-- The part_001 `POST /api/case-details` handler: validate, then respond
to the process outcome.  Every branch carries `timeTakenMs`.  The boolean
reports whether `getCaseDetailsProcess` was started. -/
def handleCaseDetails (body : ReqBody) (processResult : Except String Envelope)
    (elapsed : ℚ) : ApiResponse × Bool :=
  match validateDiaryData body with
  | .error msg => (⟨400, false, none, some msg, none, elapsed⟩, false)
  | .ok _ => (respondCaseDetails processResult elapsed, true)

end Part001

/-! ## Lemmas about the retry loop -/

/-- Unfolding the retry loop when every attempt fails: starting with
`fuel + 1` iterations left after `attempts` previous attempts, the loop
runs the remaining `fuel + 1` cycles, sleeps after each failed cycle
except the last, and ends with the error of the final attempt. -/
theorem retryLoop_allFail {α : Type} (e : Nat → String) (delay : Nat → ℚ) :
    ∀ (fuel attempts : Nat) (le : String) (sl : List ℚ),
    retryLoop (α := α) (fun n => .error (e n)) delay (fuel + 1) attempts le sl =
      ⟨attempts + fuel + 1,
       sl ++ (List.range' (attempts + 1) fuel).map delay,
       .error (e (attempts + fuel + 1))⟩ := by
  intro fuel
  induction fuel with
  | zero =>
    intro attempts le sl
    simp [retryLoop]
  | succ f ih =>
    intro attempts le sl
    rw [retryLoop]
    simp only [ih, List.range'_succ, List.map_cons, List.append_assoc,
      List.singleton_append, ProcessTrace.mk.injEq]
    exact ⟨by omega, trivial, congrArg (fun n => Except.error (e n)) (by omega)⟩

/-- The whole loop from the initial state, when every attempt fails:
`MAX_ATTEMPTS` cycles, `MAX_ATTEMPTS - 1` sleeps at the backoff delays of
attempts `1 .. MAX_ATTEMPTS - 1`, and the final attempt's error. -/
theorem retryLoop_allFail_top {α : Type} (e : Nat → String) (delay : Nat → ℚ)
    (m : Nat) (hm : 1 ≤ m) :
    retryLoop (α := α) (fun n => .error (e n)) delay m 0 "Process not attempted." [] =
      ⟨m, (List.range' 1 (m - 1)).map delay, .error (e m)⟩ := by
  obtain ⟨f, rfl⟩ : ∃ f, m = f + 1 := ⟨m - 1, by omega⟩
  simpa using retryLoop_allFail e delay f 0 "Process not attempted." []

/-- Mapping a function that is strictly increasing from `s` on over
`range' s n` gives a strictly increasing list. -/
theorem chain_lt_map_range' (f : Nat → ℚ) (s : Nat)
    (hf : ∀ k, s ≤ k → f k < f (k + 1)) :
    ∀ n, List.Chain' (fun a b => a < b) ((List.range' s n).map f) := by
  have main : ∀ (n t : Nat), s ≤ t →
      List.Chain' (fun a b => a < b) ((List.range' t n).map f) := by
    intro n
    induction n with
    | zero => intro t _; simp
    | succ k ih =>
      intro t ht
      rw [List.range'_succ]
      cases k with
      | zero => simp
      | succ k2 =>
        rw [List.range'_succ]
        simp only [List.map_cons]
        refine List.chain'_cons.mpr ⟨hf t ht, ?_⟩
        have := ih (t + 1) (by omega)
        simpa [List.range'_succ] using this
  exact fun n => main n s le_rfl

/-- The exponential backoff of server1.js, part_000 and part_001 is
strictly increasing as long as every jitter draw lies in `[0, 1)`. -/
theorem backoffDelay_strictMono (jitter : Nat → ℚ)
    (hj : ∀ k, 0 ≤ jitter k ∧ jitter k < 1) (n : Nat) :
    backoffDelay jitter n < backoffDelay jitter (n + 1) := by
  unfold backoffDelay
  have h1 : (1 : ℚ) ≤ 2 ^ n := one_le_pow₀ (by norm_num)
  have h2 := (hj n).2
  have h3 := (hj (n + 1)).1
  have h4 : (2 : ℚ) ^ (n + 1) = 2 ^ n * 2 := pow_succ 2 n
  linarith

/-- The linear delay of server.js is strictly increasing. -/
theorem serverDelay_strictMono (n : Nat) : serverDelay n < serverDelay (n + 1) := by
  unfold serverDelay
  have : ((n : ℚ)) < ((n : ℚ) + 1) := by linarith
  push_cast
  linarith

/-- An attempt environment whose first step (the initial page fetch)
fails; every cycle run in it fails with that fetch error. -/
def failingEnv : Server.AttemptEnv :=
  ⟨.error "network down", .error "network down", .error "network down",
   .error "network down", fun _ => .error "network down"⟩

/-! ## Claim theorems -/

/-- C1: if every attempt fails, `getCaseDetailsProcess` performs exactly
`MAX_ATTEMPTS` full attempt cycles (5 in server.js, configurable in
server1.js, 3 in part_000), sleeps between consecutive attempts but not
after the last one (`MAX_ATTEMPTS - 1` sleeps, after attempts
`1 .. MAX_ATTEMPTS - 1`), and throws the error recorded on the final
attempt. -/
theorem retry_exhaustion_C1 {α : Type}
    (d y : String) (envs : Nat → Server.AttemptEnv) (e : Nat → String)
    (hfail : ∀ n, Server.attemptCycle d y (envs n) = .error (e n))
    (m : Nat) (hm : 1 ≤ m) (ttl now : ℚ) (e1 : Nat → String)
    (jitter jitter2 : Nat → ℚ) :
    Server.getCaseDetailsProcess d y envs =
      ⟨5, (List.range' 1 4).map serverDelay, .error (e 5)⟩ ∧
    Server1.getCaseDetailsProcess (α := α) m ttl now [] d y
        (fun n => .error (e1 n)) jitter =
      (⟨m, (List.range' 1 (m - 1)).map (backoffDelay jitter), .error (e1 m)⟩, []) ∧
    Part000.getCaseDetailsProcess (α := α) (fun n => .error (e1 n)) jitter2 =
      ⟨3, (List.range' 1 2).map (backoffDelay jitter2), .error (e1 3)⟩ := by
  refine ⟨?_, ?_, ?_⟩
  · have hout : (fun n => Server.attemptCycle d y (envs n)) =
        (fun n => Except.error (e n)) := funext hfail
    unfold Server.getCaseDetailsProcess
    rw [hout]
    exact retryLoop_allFail_top e serverDelay 5 (by norm_num)
  · simp only [Server1.getCaseDetailsProcess, cacheGet, List.find?]
    rw [retryLoop_allFail_top e1 (backoffDelay jitter) m hm]
  · unfold Part000.getCaseDetailsProcess
    exact retryLoop_allFail_top e1 (backoffDelay jitter2) 3 (by norm_num)

/-- Witness for C1 at concrete inputs. -/
theorem retry_exhaustion_C1_witness :
    Server.getCaseDetailsProcess "2444" "2023" (fun _ => failingEnv) =
      ⟨5, (List.range' 1 4).map serverDelay, .error "network down"⟩ ∧
    Server1.getCaseDetailsProcess (α := String) 3 3600 0 [] "2444" "2023"
        (fun _ => .error "boom") (fun _ => 1 / 2) =
      (⟨3, (List.range' 1 2).map (backoffDelay (fun _ => 1 / 2)), .error "boom"⟩, []) ∧
    Part000.getCaseDetailsProcess (α := String) (fun _ => .error "boom") (fun _ => 1 / 3) =
      ⟨3, (List.range' 1 2).map (backoffDelay (fun _ => 1 / 3)), .error "boom"⟩ :=
  retry_exhaustion_C1 "2444" "2023" (fun _ => failingEnv) (fun _ => "network down")
    (fun _ => rfl) 3 (by norm_num) 3600 0 (fun _ => "boom")
    (fun _ => 1 / 2) (fun _ => 1 / 3)

/-- C2 counterexample: the claim also covers server.js
(`src/server.js` lines 182-185), but server.js sleeps `2 + attempts`
seconds: after the first failed attempt it sleeps exactly 3 seconds,
which is not `2^1 + jitter` for any jitter in `[0, 1)`. -/
theorem backoff_shape_C2_counterexample :
    (Server.getCaseDetailsProcess "2444" "2023" (fun _ => failingEnv)).sleeps.head? =
      some 3 ∧
    ¬ ∃ j : ℚ, 0 ≤ j ∧ j < 1 ∧ (3 : ℚ) = 2 ^ (1 : ℕ) + j := by
  constructor
  · have hout : (fun (_ : Nat) => Server.attemptCycle "2444" "2023" failingEnv) =
        (fun (_ : Nat) => Except.error (α := Server.CaseData) "network down") := rfl
    unfold Server.getCaseDetailsProcess
    rw [hout, retryLoop_allFail_top (fun _ => "network down") serverDelay 5 (by norm_num)]
    simp [List.range'_succ, serverDelay]
    norm_num
  · rintro ⟨j, h0, h1, he⟩
    norm_num at he
    linarith

/-- C2 amended: in server1.js (and the identical loops of part_000 and
part_001) the delay slept after a failed attempt `n < MAX_ATTEMPTS` is
`2^n + jitter n` seconds with jitter drawn uniformly in `[0, 1)`, and the
delays are strictly increasing; server.js instead sleeps `2 + n` seconds
after failed attempt `n`, which is also strictly increasing but not
exponential. -/
theorem backoff_shape_C2_amended {α : Type}
    (m : Nat) (ttl now : ℚ) (d y : String) (e1 : Nat → String)
    (jitter jitter2 : Nat → ℚ)
    (hj : ∀ k, 0 ≤ jitter k ∧ jitter k < 1)
    (hj2 : ∀ k, 0 ≤ jitter2 k ∧ jitter2 k < 1)
    (envs : Nat → Server.AttemptEnv) (e : Nat → String)
    (hfail : ∀ n, Server.attemptCycle d y (envs n) = .error (e n)) :
    ((Server1.getCaseDetailsProcess (α := α) m ttl now [] d y
        (fun n => .error (e1 n)) jitter).1.sleeps =
          (List.range' 1 (m - 1)).map (fun n => 2 ^ n + jitter n) ∧
      List.Chain' (fun a b => a < b)
        (Server1.getCaseDetailsProcess (α := α) m ttl now [] d y
          (fun n => .error (e1 n)) jitter).1.sleeps) ∧
    (Part000.getCaseDetailsProcess (α := α) (fun n => .error (e1 n)) jitter2).sleeps =
        (List.range' 1 2).map (fun n => 2 ^ n + jitter2 n) ∧
    List.Chain' (fun a b => a < b)
      (Part000.getCaseDetailsProcess (α := α) (fun n => .error (e1 n)) jitter2).sleeps ∧
    (Server.getCaseDetailsProcess d y envs).sleeps =
        (List.range' 1 4).map (fun n => ((2 : ℚ) + n)) ∧
    List.Chain' (fun a b => a < b) (Server.getCaseDetailsProcess d y envs).sleeps := by
  by_cases hm : 1 ≤ m
  case neg =>
    interval_cases m
    · refine ⟨⟨rfl, ?_⟩, rfl, ?_, ?_, ?_⟩
      · simp [Server1.getCaseDetailsProcess, cacheGet, List.find?, retryLoop]
      · have h0 : (Part000.getCaseDetailsProcess (α := α)
            (fun n => .error (e1 n)) jitter2).sleeps =
            (List.range' 1 2).map (backoffDelay jitter2) := by
          unfold Part000.getCaseDetailsProcess
          rw [retryLoop_allFail_top e1 (backoffDelay jitter2) 3 (by norm_num)]
        rw [h0]
        exact chain_lt_map_range' (backoffDelay jitter2) 1
          (fun k _ => backoffDelay_strictMono jitter2 hj2 k) 2
      · have hout : (fun n => Server.attemptCycle d y (envs n)) =
            (fun n => Except.error (e n)) := funext hfail
        unfold Server.getCaseDetailsProcess
        rw [hout, retryLoop_allFail_top e serverDelay 5 (by norm_num)]
        rfl
      · have hout : (fun n => Server.attemptCycle d y (envs n)) =
            (fun n => Except.error (e n)) := funext hfail
        unfold Server.getCaseDetailsProcess
        rw [hout, retryLoop_allFail_top e serverDelay 5 (by norm_num)]
        exact chain_lt_map_range' serverDelay 1
          (fun k _ => serverDelay_strictMono k) 4
  case pos =>
    have h1trace : Server1.getCaseDetailsProcess (α := α) m ttl now [] d y
        (fun n => .error (e1 n)) jitter =
        (⟨m, (List.range' 1 (m - 1)).map (backoffDelay jitter), .error (e1 m)⟩, []) := by
      simp only [Server1.getCaseDetailsProcess, cacheGet, List.find?]
      rw [retryLoop_allFail_top e1 (backoffDelay jitter) m hm]
    have h0trace : (Part000.getCaseDetailsProcess (α := α)
        (fun n => .error (e1 n)) jitter2).sleeps =
        (List.range' 1 2).map (backoffDelay jitter2) := by
      unfold Part000.getCaseDetailsProcess
      rw [retryLoop_allFail_top e1 (backoffDelay jitter2) 3 (by norm_num)]
    have hstrace : Server.getCaseDetailsProcess d y envs =
        ⟨5, (List.range' 1 4).map serverDelay, .error (e 5)⟩ := by
      have hout : (fun n => Server.attemptCycle d y (envs n)) =
          (fun n => Except.error (e n)) := funext hfail
      unfold Server.getCaseDetailsProcess
      rw [hout]
      exact retryLoop_allFail_top e serverDelay 5 (by norm_num)
    rw [h1trace, h0trace, hstrace]
    refine ⟨⟨rfl, ?_⟩, rfl, ?_, rfl, ?_⟩
    · exact chain_lt_map_range' (backoffDelay jitter) 1
        (fun k _ => backoffDelay_strictMono jitter hj k) (m - 1)
    · exact chain_lt_map_range' (backoffDelay jitter2) 1
        (fun k _ => backoffDelay_strictMono jitter2 hj2 k) 2
    · exact chain_lt_map_range' serverDelay 1
        (fun k _ => serverDelay_strictMono k) 4

/-- Witness for the amended C2 at concrete inputs. -/
theorem backoff_shape_C2_amended_witness :
    ((Server1.getCaseDetailsProcess (α := String) 3 3600 0 [] "2444" "2023"
        (fun _ => .error "boom") (fun _ => 1 / 2)).1.sleeps =
          (List.range' 1 2).map (fun n => 2 ^ n + (1 : ℚ) / 2) ∧
      List.Chain' (fun a b => a < b)
        (Server1.getCaseDetailsProcess (α := String) 3 3600 0 [] "2444" "2023"
          (fun _ => .error "boom") (fun _ => 1 / 2)).1.sleeps) ∧
    (Part000.getCaseDetailsProcess (α := String) (fun _ => .error "boom")
        (fun _ => 1 / 3)).sleeps =
        (List.range' 1 2).map (fun n => 2 ^ n + (1 : ℚ) / 3) ∧
    List.Chain' (fun a b => a < b)
      (Part000.getCaseDetailsProcess (α := String) (fun _ => .error "boom")
        (fun _ => 1 / 3)).sleeps ∧
    (Server.getCaseDetailsProcess "2444" "2023" (fun _ => failingEnv)).sleeps =
        (List.range' 1 4).map (fun n => ((2 : ℚ) + n)) ∧
    List.Chain' (fun a b => a < b)
      (Server.getCaseDetailsProcess "2444" "2023" (fun _ => failingEnv)).sleeps :=
  backoff_shape_C2_amended 3 3600 0 "2444" "2023" (fun _ => "boom")
    (fun _ => 1 / 2) (fun _ => 1 / 3)
    (fun _ => ⟨by norm_num, by norm_num⟩) (fun _ => ⟨by norm_num, by norm_num⟩)
    (fun _ => failingEnv) (fun _ => "network down") (fun _ => rfl)

/-- C3: when the cache holds an unexpired entry for the key
`diaryNo + "/" + year`, server1's `getCaseDetailsProcess` returns that
entry with zero attempt cycles run, no sleeps, and the cache unchanged —
and the equality holds for every `outcomes` function, so no step of any
attempt cycle (page fetch, image fetch, solver call) is consulted.
Conversely, whenever the process ends in failure the cache is returned
exactly as it was: an entry is written only on a successful attempt. -/
theorem cache_semantics_C3 {α : Type}
    (m : Nat) (ttl now : ℚ) (cache : Cache α) (d y : String)
    (outcomes : Nat → Except String α) (jitter : Nat → ℚ) :
    (∀ v, cacheGet cache (d ++ "/" ++ y) now = some v →
      Server1.getCaseDetailsProcess m ttl now cache d y outcomes jitter =
        (⟨0, [], .ok v⟩, cache)) ∧
    (∀ e, (Server1.getCaseDetailsProcess m ttl now cache d y outcomes jitter).1.result =
        .error e →
      (Server1.getCaseDetailsProcess m ttl now cache d y outcomes jitter).2 = cache) := by
  constructor
  · intro v h
    simp only [Server1.getCaseDetailsProcess, h]
  · intro e h
    simp only [Server1.getCaseDetailsProcess] at h ⊢
    cases hc : cacheGet cache (d ++ "/" ++ y) now with
    | some v => simp [hc] at h
    | none =>
      simp only [hc] at h ⊢
      cases ht : (retryLoop outcomes (backoffDelay jitter) m 0
          "Process not attempted." []).result with
      | ok v => simp [ht] at h
      | error e2 => simp [ht]

/-- Witness for C3 at concrete inputs: a fresh unexpired entry is served
back untouched, and a run in which every attempt fails leaves the empty
cache empty. -/
theorem cache_semantics_C3_witness :
    Server1.getCaseDetailsProcess (α := String) 3 3600 0
        [("2444/2023", ⟨"payload", 100⟩)] "2444" "2023"
        (fun _ => .error "boom") (fun _ => 1 / 2) =
      (⟨0, [], .ok "payload"⟩, [("2444/2023", ⟨"payload", 100⟩)]) ∧
    (Server1.getCaseDetailsProcess (α := String) 3 3600 0 [] "2444" "2023"
        (fun _ => .error "boom") (fun _ => 1 / 2)).2 = [] :=
  ⟨(cache_semantics_C3 3 3600 0 [("2444/2023", ⟨"payload", 100⟩)] "2444" "2023"
      (fun _ => .error "boom") (fun _ => 1 / 2)).1 "payload" (by decide),
   (cache_semantics_C3 3 3600 0 [] "2444" "2023"
      (fun _ => .error "boom") (fun _ => 1 / 2)).2 "boom" (by decide)⟩

/-- `splitOnSlash` never returns the empty list. -/
theorem splitOnSlash_ne_nil (cs : List Char) : splitOnSlash cs ≠ [] := by
  induction cs with
  | nil => simp [splitOnSlash]
  | cons c rest ih =>
    simp only [splitOnSlash]
    split
    · simp
    · split <;> simp

/-- A one-element split means the input had no slash. -/
theorem splitOnSlash_eq_single (cs b : List Char) (h : splitOnSlash cs = [b]) :
    cs = b := by
  induction cs generalizing b with
  | nil => simpa [splitOnSlash, eq_comm] using h
  | cons c rest ih =>
    simp only [splitOnSlash] at h
    by_cases hc : c = '/'
    · rw [if_pos hc] at h
      cases h' : splitOnSlash rest with
      | nil => exact absurd h' (splitOnSlash_ne_nil rest)
      | cons p ps => rw [h'] at h; simp at h
    · rw [if_neg hc] at h
      cases h' : splitOnSlash rest with
      | nil => exact absurd h' (splitOnSlash_ne_nil rest)
      | cons p ps =>
        rw [h'] at h
        obtain ⟨hb, hps⟩ := List.cons_eq_cons.mp h
        subst hps
        rw [← hb, ih p h']

/-- A two-element split recovers the input around one slash. -/
theorem splitOnSlash_eq_pair (cs a b : List Char) (h : splitOnSlash cs = [a, b]) :
    cs = a ++ '/' :: b := by
  induction cs generalizing a b with
  | nil => simp [splitOnSlash] at h
  | cons c rest ih =>
    simp only [splitOnSlash] at h
    by_cases hc : c = '/'
    · rw [if_pos hc] at h
      obtain ⟨ha, hrest⟩ := List.cons_eq_cons.mp h
      subst hc
      rw [← ha, List.nil_append]
      rw [splitOnSlash_eq_single rest b hrest]
    · rw [if_neg hc] at h
      cases h' : splitOnSlash rest with
      | nil => exact absurd h' (splitOnSlash_ne_nil rest)
      | cons p ps =>
        rw [h'] at h
        obtain ⟨ha, hps⟩ := List.cons_eq_cons.mp h
        have : rest = p ++ '/' :: b := by
          apply ih
          rw [h', hps]
        rw [← ha, this]
        simp

/-- Splitting a slash-free list gives that list back as the only part. -/
theorem splitOnSlash_no_slash (b : List Char) (hb : '/' ∉ b) :
    splitOnSlash b = [b] := by
  induction b with
  | nil => simp [splitOnSlash]
  | cons c rest ih =>
    have hc : c ≠ '/' := by rintro rfl; exact hb (List.mem_cons_self _ _)
    have hrest : '/' ∉ rest := fun hm => hb (List.mem_cons_of_mem _ hm)
    simp only [splitOnSlash, if_neg hc, ih hrest]

/-- Splitting a list with exactly one slash gives the two parts. -/
theorem splitOnSlash_around (a b : List Char) (ha : '/' ∉ a) (hb : '/' ∉ b) :
    splitOnSlash (a ++ '/' :: b) = [a, b] := by
  induction a with
  | nil => simp [splitOnSlash, splitOnSlash_no_slash b hb]
  | cons c a2 ih =>
    have hc : c ≠ '/' := by rintro rfl; exact ha (List.mem_cons_self _ _)
    have ha2 : '/' ∉ a2 := fun hm => ha (List.mem_cons_of_mem _ hm)
    simp only [List.cons_append, splitOnSlash, if_neg hc, List.append_eq, ih ha2]

/-- A digit is not a slash. -/
theorem digit_ne_slash {c : Char} (h : c.isDigit = true) : c ≠ '/' := by
  rintro rfl
  simp at h

/-- The source validator accepts a string exactly when it matches the
spec's pattern. -/
theorem validateDiaryData_ok_iff (s : String) :
    (∃ p, validateDiaryData (.str s) = .ok p) ↔ specDiaryPattern s.data := by
  constructor
  · rintro ⟨p, hp⟩
    simp only [validateDiaryData] at hp
    by_cases hs : s = ""
    · rw [if_pos hs] at hp
      exact absurd hp (by simp)
    · rw [if_neg hs] at hp
      cases hsp : splitOnSlash s.data with
      | nil => rw [hsp] at hp; simp at hp
      | cons a tl =>
        cases tl with
        | nil => rw [hsp] at hp; simp at hp
        | cons b tl2 =>
          cases tl2 with
          | cons x tl3 => rw [hsp] at hp; simp at hp
          | nil =>
            rw [hsp] at hp
            by_cases hcond :
                (!a.isEmpty && a.all Char.isDigit && b.length == 4 &&
                  b.all Char.isDigit) = true
            · simp only [Bool.and_eq_true, Bool.not_eq_true',
                List.isEmpty_eq_false, beq_iff_eq, List.all_eq_true] at hcond
              obtain ⟨⟨⟨hne, hda⟩, hlen⟩, hdb⟩ := hcond
              exact ⟨a, b, splitOnSlash_eq_pair _ a b hsp, hne, hda, hlen, hdb⟩
            · simp only [hcond] at hp
              simp at hp
  · rintro ⟨a, b, hdecomp, hne, hda, hlen, hdb⟩
    have hs : s ≠ "" := by
      intro h
      rw [h] at hdecomp
      exact absurd hdecomp.symm (by simp)
    have ha : ('/' : Char) ∉ a := fun hm => digit_ne_slash (hda _ hm) rfl
    have hb : ('/' : Char) ∉ b := fun hm => digit_ne_slash (hdb _ hm) rfl
    refine ⟨(⟨a⟩, ⟨b⟩), ?_⟩
    simp only [validateDiaryData]
    rw [if_neg hs, hdecomp, splitOnSlash_around a b ha hb]
    have hcond : (!a.isEmpty && a.all Char.isDigit && b.length == 4 &&
        b.all Char.isDigit) = true := by
      simp only [Bool.and_eq_true, Bool.not_eq_true', List.isEmpty_eq_false,
        beq_iff_eq, List.all_eq_true]
      exact ⟨⟨⟨hne, hda⟩, hlen⟩, hdb⟩
    simp only [hcond, if_true]

/-- C5: the `POST /api/case-details` validator accepts exactly the
strings matching `^\d+/\d{4}$` (and no missing or non-string payload);
every rejected request is answered 400 without starting
`getCaseDetailsProcess`, and every accepted request starts it. -/
theorem input_validation_C5 :
    (∀ s : String,
      (∃ p, validateDiaryData (.str s) = .ok p) ↔ specDiaryPattern s.data) ∧
    (¬ ∃ p, validateDiaryData .missing = .ok p) ∧
    (¬ ∃ p, validateDiaryData .notString = .ok p) ∧
    (∀ (body : ReqBody) (envs : Nat → Server.AttemptEnv) (elapsed : ℚ)
        (msg : String), validateDiaryData body = .error msg →
      (Server.handleCaseDetails body envs elapsed).1.status = 400 ∧
      (Server.handleCaseDetails body envs elapsed).2 = false) ∧
    (∀ (body : ReqBody) (pr : Except String Part001.Envelope) (elapsed : ℚ)
        (msg : String), validateDiaryData body = .error msg →
      (Part001.handleCaseDetails body pr elapsed).1.status = 400 ∧
      (Part001.handleCaseDetails body pr elapsed).2 = false) ∧
    (∀ (body : ReqBody) (envs : Nat → Server.AttemptEnv) (elapsed : ℚ) p,
      validateDiaryData body = .ok p →
      (Server.handleCaseDetails body envs elapsed).2 = true) := by
  refine ⟨validateDiaryData_ok_iff, by simp [validateDiaryData],
    by simp [validateDiaryData], ?_, ?_, ?_⟩
  · intro body envs elapsed msg h
    simp [Server.handleCaseDetails, h]
  · intro body pr elapsed msg h
    simp [Part001.handleCaseDetails, h]
  · intro body envs elapsed p h
    obtain ⟨d1, y1⟩ := p
    simp [Server.handleCaseDetails, h]

/-- Witness for C5 at concrete inputs: `"2444/2023"` is accepted and the
lookup starts; `"abc"` is rejected with a 400 and no attempt starts. -/
theorem input_validation_C5_witness :
    ((Server.handleCaseDetails (.str "abc") (fun _ => failingEnv) 0).1.status = 400 ∧
      (Server.handleCaseDetails (.str "abc") (fun _ => failingEnv) 0).2 = false) ∧
    (Server.handleCaseDetails (.str "2444/2023") (fun _ => failingEnv) 0).2 = true :=
  ⟨input_validation_C5.2.2.2.1 (.str "abc") (fun _ => failingEnv) 0
      "Invalid 'diaryData' format: Expected 'number/year' (e.g., '2444/2023')."
      (by decide),
    input_validation_C5.2.2.2.2.2 (.str "2444/2023") (fun _ => failingEnv) 0
      ("2444", "2023") (by decide)⟩

/-- C4: for diaryNo `"2444"`, year `"2023"`, scid `"77"`, token
`(tok_abc, xyz)`, answer `"11"`, `buildFinalUrl` produces a URL whose
query string consists of exactly the nine claimed pairs, in order; and
for every choice of the five inputs all nine fields are appended — none
is ever omitted. -/
theorem request_composition_C4 :
    buildFinalUrlParams "2444" "2023" "77" ⟨"tok_abc", "xyz"⟩ "11" =
      [("diary_no", "2444"), ("year", "2023"), ("scid", "77"),
       ("tok_abc", "xyz"), ("siwp_captcha_value", "11"),
       ("es_ajax_request", "1"), ("submit", "Search"),
       ("action", "get_case_status_diary_no"), ("language", "en")] ∧
    buildFinalUrl "2444" "2023" "77" ⟨"tok_abc", "xyz"⟩ "11" =
      "https://www.sci.gov.in/wp-admin/admin-ajax.php?diary_no=2444&year=2023&scid=77&tok_abc=xyz&siwp_captcha_value=11&es_ajax_request=1&submit=Search&action=get_case_status_diary_no&language=en" ∧
    ∀ (diaryNo year scid : String) (token : SessionToken) (captchaAnswer : String),
      (buildFinalUrlParams diaryNo year scid token captchaAnswer).map Prod.fst =
        ["diary_no", "year", "scid", token.name, "siwp_captcha_value",
         "es_ajax_request", "submit", "action", "language"] :=
  ⟨rfl, by set_option maxRecDepth 10000 in decide, fun _ _ _ _ _ => rfl⟩

/-- When no character of the input is a digit, the `-?\d+` pattern finds
no match. -/
theorem firstSignedInt_eq_none (cs : List Char)
    (h : ∀ c ∈ cs, c.isDigit = false) : firstSignedInt cs = none := by
  induction cs with
  | nil => rfl
  | cons c rest ih =>
    have hc : c.isDigit = false := h c (List.mem_cons_self _ _)
    have hrest : ∀ x ∈ rest, x.isDigit = false :=
      fun x hx => h x (List.mem_cons_of_mem _ hx)
    have h2 : (c = '-' && ((rest.head?.map Char.isDigit).getD false)) = false := by
      cases rest with
      | nil => simp
      | cons d tl =>
        have hd : d.isDigit = false := hrest d (List.mem_cons_self _ _)
        simp [hd]
    simp only [firstSignedInt, hc, h2, Bool.false_eq_true, if_false]
    exact ih hrest

/-- Trimming only removes characters. -/
theorem mem_jsTrim {c : Char} {cs : List Char} (h : c ∈ jsTrim cs) : c ∈ cs := by
  unfold jsTrim at h
  rw [List.mem_reverse] at h
  have h2 := (List.dropWhile_sublist isJsSpace).subset h
  rw [List.mem_reverse] at h2
  exact (List.dropWhile_sublist isJsSpace).subset h2

/-- C6: the CAPTCHA answer post-processor extracts the first signed
integer of the oracle's reply — `"11"`, `"The answer is 11."`, `"-3"`
yield `"11"`, `"11"`, `"-3"` — and a reply with no digit anywhere (such as
`"I cannot determine this"`) makes the attempt fail instead of returning
an answer. -/
theorem captcha_answer_parsing_C6 :
    solveCaptchaPost "11" = .ok "11" ∧
    solveCaptchaPost "The answer is 11." = .ok "11" ∧
    solveCaptchaPost "-3" = .ok "-3" ∧
    solveCaptchaPost "I cannot determine this" =
      .error "Gemini Error: Failed to get clear numerical answer for CAPTCHA." ∧
    solveCaptchaWithGemini (.ok "I cannot determine this") =
      .error ("Gemini CAPTCHA solving failed: " ++
        "Gemini Error: Failed to get clear numerical answer for CAPTCHA.") ∧
    ∀ text : String, (∀ c ∈ text.data, c.isDigit = false) →
      solveCaptchaPost text =
        .error "Gemini Error: Failed to get clear numerical answer for CAPTCHA." := by
  refine ⟨by decide, by decide, by decide, by decide, by decide, ?_⟩
  intro text h
  unfold solveCaptchaPost
  rw [firstSignedInt_eq_none _ (fun c hc => h c (mem_jsTrim hc))]

/-- Witness for C6's universally quantified part at a concrete digit-free
oracle reply. -/
theorem captcha_answer_parsing_C6_witness :
    solveCaptchaPost "no digits here" =
      .error "Gemini Error: Failed to get clear numerical answer for CAPTCHA." :=
  captcha_answer_parsing_C6.2.2.2.2.2 "no digits here" (by decide)

/-- A string with the `tok_` prefix is non-empty. -/
theorem startsWith_tok_ne_empty {n : String} (h : strStartsWith n "tok_" = true) :
    n ≠ "" := by
  rintro rfl
  simp [strStartsWith, List.isPrefixOf] at h

/-- The head of a filtered list is a member satisfying the filter. -/
theorem head_filter_mem {p : InputTag → Bool} {l : List InputTag} {a : InputTag}
    (h : (l.filter p).head? = some a) : a ∈ l.filter p := by
  cases hf : l.filter p with
  | nil => rw [hf] at h; simp at h
  | cons x xs =>
    rw [hf] at h
    simp only [List.head?_cons, Option.some.injEq] at h
    subst h
    exact List.mem_cons_self _ _

/-- Unfolding `extractToken` once the first selected input is known. -/
theorem extractToken_head_some (inputs : List InputTag) (first : InputTag)
    (h : (inputs.filter isHiddenTok).head? = some first) :
    extractToken inputs =
      (match first.nameAttr, first.valueAttr with
       | some tokenName, some tokenValue =>
         if tokenName ≠ "" && tokenValue ≠ "" then
           .ok ⟨tokenName, tokenValue⟩
         else
           .error "CSRF token not found."
       | _, _ => .error "CSRF token not found.") := by
  unfold extractToken
  rw [h]

/-- Unfolding `extractToken` when no input is selected. -/
theorem extractToken_head_none (inputs : List InputTag)
    (h : (inputs.filter isHiddenTok).head? = none) :
    extractToken inputs = .error "CSRF token not found." := by
  unfold extractToken
  rw [h]

/-- C7 counterexample: the claim says extraction fails exactly when NO
hidden `tok_`-prefixed input has both a non-empty name and value, but on a
page whose FIRST `tok_` input has an empty value the source throws even
though the second `tok_` input has both: the failure condition depends
only on the first selected input. -/
theorem token_extraction_C7_counterexample :
    extractToken [⟨some "hidden", some "tok_a", some ""⟩,
                  ⟨some "hidden", some "tok_b", some "xyz"⟩] =
      .error "CSRF token not found." ∧
    ∃ i ∈ [⟨some "hidden", some "tok_a", some ""⟩,
           (⟨some "hidden", some "tok_b", some "xyz"⟩ : InputTag)],
      isHiddenTok i = true ∧ i.nameAttr = some "tok_b" ∧
        i.valueAttr = some "xyz" ∧ ("tok_b" : String) ≠ "" ∧
        ("xyz" : String) ≠ "" := by
  refine ⟨by decide, ⟨⟨some "hidden", some "tok_b", some "xyz"⟩,
    List.mem_cons_of_mem _ (List.mem_cons_self _ _), by decide⟩⟩

/-- C7 amended: `extractToken` is a deterministic pure function of the
page's inputs; on success the pair comes from the FIRST hidden input
whose name begins with `tok_`; and it fails exactly when no such input
exists or the first one's `value` attribute is absent or empty (the
selected name is necessarily non-empty, since it starts with `tok_`). -/
theorem token_extraction_C7_amended (inputs : List InputTag) :
    (∀ inputs2, inputs = inputs2 → extractToken inputs = extractToken inputs2) ∧
    (∀ first n v, (inputs.filter isHiddenTok).head? = some first →
      first.nameAttr = some n → first.valueAttr = some v → v ≠ "" →
      extractToken inputs = .ok ⟨n, v⟩) ∧
    ((∃ msg, extractToken inputs = .error msg) ↔
      (match (inputs.filter isHiddenTok).head? with
       | none => True
       | some first => first.valueAttr = none ∨ first.valueAttr = some "")) := by
  refine ⟨fun inputs2 h => by rw [h], ?_, ?_⟩
  · intro first n v hhead hname hval hv
    have hmem := head_filter_mem hhead
    have hfilter := List.of_mem_filter hmem
    simp only [isHiddenTok, Bool.and_eq_true, beq_iff_eq] at hfilter
    rw [hname] at hfilter
    have hn : n ≠ "" := startsWith_tok_ne_empty hfilter.2
    rw [extractToken_head_some inputs first hhead, hname, hval]
    simp [hn, hv]
  · cases hhead : (inputs.filter isHiddenTok).head? with
    | none =>
      constructor
      · intro _; trivial
      · intro _
        exact ⟨"CSRF token not found.", extractToken_head_none inputs hhead⟩
    | some first =>
      have hmem := head_filter_mem hhead
      have hfilter := List.of_mem_filter hmem
      simp only [isHiddenTok, Bool.and_eq_true, beq_iff_eq] at hfilter
      obtain ⟨htype, hnamePre⟩ := hfilter
      rw [extractToken_head_some inputs first hhead]
      cases hname : first.nameAttr with
      | none => rw [hname] at hnamePre; simp at hnamePre
      | some n =>
        rw [hname] at hnamePre
        have hn : n ≠ "" := startsWith_tok_ne_empty hnamePre
        cases hval : first.valueAttr with
        | none =>
          constructor
          · intro _; exact Or.inl hval
          · intro _
            exact ⟨"CSRF token not found.", rfl⟩
        | some v =>
          by_cases hv : v = ""
          · subst hv
            constructor
            · intro _; exact Or.inr hval
            · intro _
              refine ⟨"CSRF token not found.", ?_⟩
              simp
          · constructor
            · rintro ⟨msg, hmsg⟩
              simp [hn, hv] at hmsg
            · rintro (h | h) <;> rw [hval] at h
              · exact absurd h (by simp)
              · exact absurd h (by simpa using hv)

/-- Witness for the amended C7 at a concrete page: a single well-formed
token input is extracted, and its failure characterization holds. -/
theorem token_extraction_C7_amended_witness :
    extractToken [⟨some "hidden", some "tok_k", some "v1"⟩] =
      .ok ⟨"tok_k", "v1"⟩ :=
  (token_extraction_C7_amended
      [⟨some "hidden", some "tok_k", some "v1"⟩]).2.1
    ⟨some "hidden", some "tok_k", some "v1"⟩ "tok_k" "v1"
    (by decide) rfl rfl (by decide)

/-- The C8 example results row: seven cells, the third carrying both the
case number and the registration date. -/
def exampleRow : List Part001.Cell :=
  [⟨"1", none⟩, ⟨"101/2020", none⟩,
   ⟨"W.P.(C) No. 123/2020 Registered on 05-01-2020", none⟩,
   ⟨"Pet", none⟩, ⟨"Resp", none⟩, ⟨"Pending", none⟩, ⟨"", none⟩]

/-- A results row without the `Registered on` pattern in its third
cell. -/
def exampleRowNoDate : List Part001.Cell :=
  [⟨"2", none⟩, ⟨"102/2021", none⟩, ⟨"SLP(C) No. 9/2021", none⟩,
   ⟨"Pet2", none⟩, ⟨"Resp2", none⟩, ⟨"Disposed", none⟩, ⟨"", none⟩]

/-- C8: the normalizing table parser splits
`"W.P.(C) No. 123/2020 Registered on 05-01-2020"` into case number
`"W.P.(C) No. 123/2020"` and registration date `"05-01-2020"`; without the
pattern the whole (whitespace-collapsed) text becomes the case number and
the date stays empty; zero rows parse to the empty sequence rather than
an error; and a row with fewer than 7 cells is skipped without affecting
the rows around it. -/
theorem table_parsing_C8 :
    Part001.parseCaseDetailsHtml [exampleRow] =
      [{ serialNumber := "1", diaryNumber := "101/2020",
         caseNumber := "W.P.(C) No. 123/2020", registeredOn := "05-01-2020",
         petitionerName := "Pet", respondentName := "Resp",
         status := "Pending", viewDetailsLink := "" }] ∧
    Part001.parseCaseDetailsHtml [exampleRowNoDate] =
      [{ serialNumber := "2", diaryNumber := "102/2021",
         caseNumber := "SLP(C) No. 9/2021", registeredOn := "",
         petitionerName := "Pet2", respondentName := "Resp2",
         status := "Disposed", viewDetailsLink := "" }] ∧
    Part001.parseCaseDetailsHtml [] = [] ∧
    (∀ t : String, Part001.findRegisteredOn t.data = none →
      Part001.splitCaseInfo t = (⟨jsTrim (collapseWs t.data)⟩, "")) ∧
    (∀ (pre post : List (List Part001.Cell)) (r : List Part001.Cell),
      r.length < 7 →
      Part001.parseCaseDetailsHtml (pre ++ r :: post) =
        Part001.parseCaseDetailsHtml (pre ++ post)) := by
  refine ⟨by decide, by decide, rfl, ?_, ?_⟩
  · intro t h
    unfold Part001.splitCaseInfo
    rw [h]
  · intro pre post r hr
    unfold Part001.parseCaseDetailsHtml
    rw [List.filterMap_append, List.filterMap_append, List.filterMap_cons]
    have hnone : Part001.parseRow r = none := by
      unfold Part001.parseRow
      rw [if_neg (by omega)]
    rw [hnone]

/-- Witness for C8 universally quantified parts at concrete inputs. -/
theorem table_parsing_C8_witness :
    Part001.splitCaseInfo "Misc No. 5" =
      (⟨jsTrim (collapseWs ("Misc No. 5" : String).data)⟩, "") ∧
    Part001.parseCaseDetailsHtml [exampleRow, [⟨"short", none⟩], exampleRowNoDate] =
      Part001.parseCaseDetailsHtml [exampleRow, exampleRowNoDate] :=
  ⟨table_parsing_C8.2.2.2.1 "Misc No. 5" (by decide),
   table_parsing_C8.2.2.2.2 [exampleRow] [exampleRowNoDate]
     [⟨"short", none⟩] (by decide)⟩

/-- When every attempt's outcome is an error, the loop ends in an error
(whatever the fuel and starting state). -/
theorem retryLoop_result_isError {α : Type} (outcomes : Nat → Except String α)
    (delay : Nat → ℚ) :
    ∀ (fuel attempts : Nat) (le : String) (sl : List ℚ),
    (∀ n, ∃ m, outcomes n = .error m) →
    ∃ m, (retryLoop outcomes delay fuel attempts le sl).result = .error m := by
  intro fuel
  induction fuel with
  | zero => intro attempts le sl _; exact ⟨le, rfl⟩
  | succ f ih =>
    intro attempts le sl h
    obtain ⟨m, hm⟩ := h (attempts + 1)
    cases f with
    | zero =>
      refine ⟨m, ?_⟩
      rw [retryLoop, hm]
    | succ f2 =>
      obtain ⟨m2, hm2⟩ := ih (attempts + 1) m (sl ++ [delay (attempts + 1)]) h
      refine ⟨m2, ?_⟩
      rw [retryLoop, hm]
      exact hm2

/-- C9: in the normalizing variant, once the input validates, the handler
answers 200 with the parsed records and pagination when the upstream
envelope has `success === true` and a results fragment, 422 when the
envelope itself reports `success === false`, 500 when the envelope has any
other shape, and 500 when the process throws (including exhausted
retries); and every response of every branch (400 included) carries the
elapsed time as `timeTakenMs`. -/
theorem normalizing_endpoint_C9 :
    (∀ (body : ReqBody) (p : String × String) (elapsed : ℚ),
      validateDiaryData body = .ok p →
      (∀ (env : Part001.Envelope) (d : Part001.SourceData) rows,
        env.success = .tru → env.data = some d → d.resultsHtml = some rows →
        Part001.handleCaseDetails body (.ok env) elapsed =
          (⟨200, true, some (Part001.parseCaseDetailsHtml rows), none,
            d.pagination, elapsed⟩, true)) ∧
      (∀ env : Part001.Envelope, env.success = .fls →
        (Part001.handleCaseDetails body (.ok env) elapsed).1.status = 422 ∧
        (Part001.handleCaseDetails body (.ok env) elapsed).1.success = false) ∧
      (∀ env : Part001.Envelope,
        env.success = .other ∨
          (env.success = .tru ∧ (env.data = none ∨
            ∃ d, env.data = some d ∧ d.resultsHtml = none)) →
        (Part001.handleCaseDetails body (.ok env) elapsed).1.status = 500) ∧
      (∀ e : String,
        (Part001.handleCaseDetails body (.error e) elapsed).1.status = 500)) ∧
    (∀ (body : ReqBody) (pr : Except String Part001.Envelope) (elapsed : ℚ),
      (Part001.handleCaseDetails body pr elapsed).1.timeTakenMs = elapsed) := by
  have hunfold : ∀ (body : ReqBody) (p : String × String)
      (pr : Except String Part001.Envelope) (elapsed : ℚ),
      validateDiaryData body = .ok p →
      Part001.handleCaseDetails body pr elapsed =
        (Part001.respondCaseDetails pr elapsed, true) := by
    intro body p pr elapsed h
    unfold Part001.handleCaseDetails
    rw [h]
  constructor
  · intro body p elapsed hvalid
    refine ⟨?_, ?_, ?_, ?_⟩
    · intro env d rows h1 h2 h3
      rw [hunfold body p _ elapsed hvalid]
      obtain ⟨su, da⟩ := env
      cases su with
      | fls => exact absurd h1 (by simp)
      | other => exact absurd h1 (by simp)
      | tru =>
        cases da with
        | none => exact absurd h2 (by simp)
        | some d2 =>
          have hd2 : d2 = d := by simpa using h2
          subst hd2
          obtain ⟨dmsg, dhtml, drh, dpg⟩ := d2
          cases drh with
          | none => exact absurd h3 (by simp)
          | some rows2 =>
            have hr2 : rows2 = rows := by simpa using h3
            subst hr2
            rfl
    · intro env h1
      rw [hunfold body p _ elapsed hvalid]
      obtain ⟨su, da⟩ := env
      cases su with
      | tru => exact absurd h1 (by simp)
      | other => exact absurd h1 (by simp)
      | fls => exact ⟨rfl, rfl⟩
    · intro env hshape
      rw [hunfold body p _ elapsed hvalid]
      obtain ⟨su, da⟩ := env
      rcases hshape with h1 | ⟨h1, hdata⟩
      · cases su with
        | tru => exact absurd h1 (by simp)
        | fls => exact absurd h1 (by simp)
        | other =>
          cases da with
          | none => rfl
          | some d => rfl
      · cases su with
        | fls => exact absurd h1 (by simp)
        | other => exact absurd h1 (by simp)
        | tru =>
          rcases hdata with h2 | ⟨d, h2, h3⟩
          · cases da with
            | some d => exact absurd h2 (by simp)
            | none => rfl
          · cases da with
            | none => exact absurd h2 (by simp)
            | some d2 =>
              have hd2 : d2 = d := by simpa using h2
              subst hd2
              obtain ⟨dmsg, dhtml, drh, dpg⟩ := d2
              cases drh with
              | some rows => exact absurd h3 (by simp)
              | none => rfl
    · intro e
      rw [hunfold body p _ elapsed hvalid]
      rfl
  · intro body pr elapsed
    unfold Part001.handleCaseDetails
    cases hv : validateDiaryData body with
    | error msg => rfl
    | ok p =>
      cases pr with
      | error e => rfl
      | ok env =>
        obtain ⟨su, da⟩ := env
        cases su with
        | tru =>
          cases da with
          | none => rfl
          | some d =>
            obtain ⟨dmsg, dhtml, drh, dpg⟩ := d
            cases drh with
            | none => rfl
            | some rows => rfl
        | fls => rfl
        | other => rfl

/-- Witness for C9 at concrete inputs: a success envelope with one row,
a failure envelope, a malformed envelope, and a thrown error, all under a
validated request. -/
theorem normalizing_endpoint_C9_witness :
    Part001.handleCaseDetails (.str "2444/2023")
        (.ok ⟨.tru, some ⟨none, none, some [exampleRow], some "page 1"⟩⟩) 7 =
      (⟨200, true, some (Part001.parseCaseDetailsHtml [exampleRow]), none,
        some "page 1", 7⟩, true) ∧
    (Part001.handleCaseDetails (.str "2444/2023")
        (.ok ⟨.fls, some ⟨some "no record", none, none, none⟩⟩) 7).1.status = 422 ∧
    (Part001.handleCaseDetails (.str "2444/2023")
        (.ok ⟨.tru, none⟩) 7).1.status = 500 ∧
    (Part001.handleCaseDetails (.str "2444/2023")
        (.error "all attempts failed") 7).1.status = 500 := by
  have hv : validateDiaryData (.str "2444/2023") = .ok ("2444", "2023") := by decide
  have h := (normalizing_endpoint_C9.1 (.str "2444/2023") ("2444", "2023") 7 hv)
  exact ⟨h.1 ⟨.tru, some ⟨none, none, some [exampleRow], some "page 1"⟩⟩
      ⟨none, none, some [exampleRow], some "page 1"⟩ [exampleRow] rfl rfl rfl,
    (h.2.1 ⟨.fls, some ⟨some "no record", none, none, none⟩⟩ rfl).1,
    h.2.2.1 ⟨.tru, none⟩ (Or.inr ⟨rfl, Or.inl rfl⟩),
    h.2.2.2 "all attempts failed"⟩

/-- C10: in the single-record variant, a successful upstream envelope
whose results table has no rows, or whose first row has an empty
diary-number cell, makes `parseCaseDetailsFromHtml` throw, so that attempt
fails and the lookup is retried; when every attempt ends that way the
caller receives a 500 (never a 200 with an empty result); and the parser
reads only the first table row — rows after the first never influence the
outcome. -/
theorem empty_results_retry_C10 :
    (Server.parseCaseDetailsFromHtml [] =
      .error "CaseDetailsParse Error: Could not parse details from resultsHTML.") ∧
    (∀ (r : Server.ServerRow) rest, jsTrimS ((r.cells.get? 1).getD "") = "" →
      Server.parseCaseDetailsFromHtml (r :: rest) =
        .error "CaseDetailsParse Error: Could not parse details from resultsHTML.") ∧
    (∀ (r : Server.ServerRow) rest,
      Server.parseCaseDetailsFromHtml (r :: rest) =
        Server.parseCaseDetailsFromHtml [r]) ∧
    (∀ (d y : String) (env : Server.AttemptEnv) page tok scid reply ans rows,
      env.initialPage = .ok page → extractToken page = .ok tok →
      env.captchaInfo = .ok scid → env.imageBuffer = .ok () →
      solveCaptchaWithGemini env.oracleReply = .ok ans → env.oracleReply = .ok reply →
      (∀ url, env.ajaxReply url = .ok ⟨true, some rows⟩) →
      Server.attemptCycle d y env = Server.parseCaseDetailsFromHtml rows) ∧
    (∀ (body : ReqBody) (envs : Nat → Server.AttemptEnv) (elapsed : ℚ) p,
      validateDiaryData body = .ok p →
      (∀ n, ∃ rows, Server.attemptCycle p.1 p.2 (envs n) =
        Server.parseCaseDetailsFromHtml rows ∧
        (rows = [] ∨ ∃ r rest, rows = r :: rest ∧
          jsTrimS ((r.cells.get? 1).getD "") = "")) →
      (Server.handleCaseDetails body envs elapsed).1.status = 500 ∧
      (Server.handleCaseDetails body envs elapsed).1.success = false) := by
  have h1 : Server.parseCaseDetailsFromHtml [] =
      .error "CaseDetailsParse Error: Could not parse details from resultsHTML." := rfl
  have h2 : ∀ (r : Server.ServerRow) rest, jsTrimS ((r.cells.get? 1).getD "") = "" →
      Server.parseCaseDetailsFromHtml (r :: rest) =
        .error "CaseDetailsParse Error: Could not parse details from resultsHTML." := by
    intro r rest h
    unfold Server.parseCaseDetailsFromHtml
    simp only [List.head?_cons]
    have h2 : jsTrimS (r.cells[1]?.getD "") = "" := by simpa using h
    simp [h2]
  refine ⟨h1, h2, fun r rest => rfl, ?_, ?_⟩
  · intro d y env page tok scid reply ans rows hpage htok hscid himg hsolve horacle hajax
    simp only [Server.attemptCycle, hpage, htok, hscid, himg, hsolve, hajax]
  · intro body envs elapsed p hvalid hrows
    obtain ⟨d1, y1⟩ := p
    have hcycle_err : ∀ n, ∃ m,
        (fun k => Server.attemptCycle d1 y1 (envs k)) n = .error m := by
      intro n
      obtain ⟨rows, hcyc, hbad⟩ := hrows n
      rcases hbad with hnil | ⟨r, rest, hcons, hdiary⟩
      · subst hnil
        exact ⟨_, hcyc.trans h1⟩
      · subst hcons
        exact ⟨_, hcyc.trans (h2 r rest hdiary)⟩
    obtain ⟨m, hres⟩ := retryLoop_result_isError
      (fun k => Server.attemptCycle d1 y1 (envs k)) serverDelay 5 0
      "Process not attempted." [] hcycle_err
    have hres2 : (Server.getCaseDetailsProcess d1 y1 envs).result = .error m := hres
    have hh : Server.handleCaseDetails body envs elapsed =
        (Server.respondCaseDetails (Server.getCaseDetailsProcess d1 y1 envs).result
          elapsed, true) := by
      unfold Server.handleCaseDetails
      rw [hvalid]
    rw [hh, hres2]
    exact ⟨rfl, rfl⟩

/-- Witness for C10 at a concrete run: the upstream accepts the CAPTCHA
but returns an empty results table on every attempt, and the caller gets
a 500. -/
def emptyResultsEnv : Server.AttemptEnv :=
  ⟨.ok [⟨some "hidden", some "tok_k", some "v1"⟩], .ok "77", .ok (),
   .ok "11", fun _ => .ok ⟨true, some []⟩⟩

/-- Witness for C10's hypotheses at concrete inputs. -/
theorem empty_results_retry_C10_witness :
    Server.attemptCycle "2444" "2023" emptyResultsEnv =
      Server.parseCaseDetailsFromHtml [] ∧
    (Server.handleCaseDetails (.str "2444/2023") (fun _ => emptyResultsEnv) 9).1.status = 500 ∧
    (Server.handleCaseDetails (.str "2444/2023") (fun _ => emptyResultsEnv) 9).1.success = false :=
  ⟨empty_results_retry_C10.2.2.2.1 "2444" "2023" emptyResultsEnv
      [⟨some "hidden", some "tok_k", some "v1"⟩] ⟨"tok_k", "v1"⟩ "77" "11" "11" []
      rfl (by decide) rfl rfl (by decide) rfl (fun _ => rfl),
    (empty_results_retry_C10.2.2.2.2 (.str "2444/2023") (fun _ => emptyResultsEnv) 9
      ("2444", "2023") (by decide)
      (fun n => ⟨[], rfl, Or.inl rfl⟩)).1,
    (empty_results_retry_C10.2.2.2.2 (.str "2444/2023") (fun _ => emptyResultsEnv) 9
      ("2444", "2023") (by decide)
      (fun n => ⟨[], rfl, Or.inl rfl⟩)).2⟩

end CasesStatus
